import Mathlib

set_option maxHeartbeats 1000000

/-
Verification of the ilastik lazy-dataflow core against its specification.
Each source module the claims touch is shallowly embedded in its own
namespace; definitions follow the Python source line by line.
-/

namespace Features

/- Embedding of src/ilastik/features/feature_extractor.py. -/

/-- Five named axes, t x y z c; models both Point5D and Shape5D of ndstructs. -/
structure Point5D where
  t : Nat
  x : Nat
  y : Nat
  z : Nat
  c : Nat
deriving DecidableEq

abbrev Shape5D := Point5D

/-- Per-axis floor division, as in Python Point5D floor-division by an integer. -/
def Point5D.floorDiv (p : Point5D) (d : Nat) : Point5D :=
  ⟨p.t / d, p.x / d, p.y / d, p.z / d, p.c / d⟩

/-- Per-axis less-or-equal on 5d points. -/
def Point5D.axisLe (a b : Point5D) : Prop :=
  a.t ≤ b.t ∧ a.x ≤ b.x ∧ a.y ≤ b.y ∧ a.z ≤ b.z ∧ a.c ≤ b.c

/-- A 5d region of interest: start and stop per axis (DataSourceSlice bounds). -/
structure Slice5D where
  start : Point5D
  stop : Point5D
deriving DecidableEq

/-- A feature extractor is identified, for caching purposes, by its class and
field values (FeatureExtractor defines eq and hash over the class and the
instance dictionary); here the identity is the kernel shape plus the remaining
field values, abstracted as a list of numbers. -/
structure FeatureExtractor where
  kernel_shape : Shape5D
  params : List Nat
deriving DecidableEq

/-- FeatureExtractor.halo: kernel_shape floor-divided by 2. -/
def FeatureExtractor.halo (f : FeatureExtractor) : Point5D :=
  f.kernel_shape.floorDiv 2

/-- FeatureExtractorCollection holds a non-empty tuple of member features
(the constructor asserts len(features) > 0; theorems carry that hypothesis). -/
structure FeatureExtractorCollection where
  features : List FeatureExtractor
deriving DecidableEq

/-- Python max over a list of naturals (foldr max 0 agrees with it on
non-empty lists). -/
def natMax (l : List Nat) : Nat := l.foldr max 0

/-- FeatureExtractorCollection constructor computes, for every axis label, the
maximum of the member kernel shapes on that axis. -/
def FeatureExtractorCollection.kernel_shape (coll : FeatureExtractorCollection) : Shape5D :=
  { t := natMax (coll.features.map (fun f => f.kernel_shape.t))
    x := natMax (coll.features.map (fun f => f.kernel_shape.x))
    y := natMax (coll.features.map (fun f => f.kernel_shape.y))
    z := natMax (coll.features.map (fun f => f.kernel_shape.z))
    c := natMax (coll.features.map (fun f => f.kernel_shape.c)) }

/-- The collection inherits halo = kernel_shape floor-div 2 from FeatureExtractor. -/
def FeatureExtractorCollection.halo (coll : FeatureExtractorCollection) : Point5D :=
  coll.kernel_shape.floorDiv 2

/-- Modelled from the spec: DataSourceSlice.retrieve, the upstream read issued
by FeatureExtractorCollection.compute on line 120 (the retrieve implementation
itself is not under src/). Per the spec, a halo is the extra margin of input
Region an Operator reads beyond its output Region footprint, so the requested
upstream region is exactly roi padded by the halo on each side (truncated at
the volume origin by Nat subtraction). -/
def Slice5D.enlarged (roi : Slice5D) (halo : Point5D) : Slice5D :=
  { start := ⟨roi.start.t - halo.t, roi.start.x - halo.x, roi.start.y - halo.y,
              roi.start.z - halo.z, roi.start.c - halo.c⟩
    stop := ⟨roi.stop.t + halo.t, roi.stop.x + halo.x, roi.stop.y + halo.y,
             roi.stop.z + halo.z, roi.stop.c + halo.c⟩ }

/-- The region FeatureExtractorCollection.compute requests upstream:
roi.retrieve(self.halo). -/
def FeatureExtractorCollection.computeRequest (coll : FeatureExtractorCollection)
    (roi : Slice5D) : Slice5D :=
  Slice5D.enlarged roi coll.halo

/-- The uncached body of FeatureExtractorCollection.compute: each member
feature fills its own channel stack of the target buffer, so the result is the
channel-wise concatenation of the member outputs. The member computation
itself is abstracted as interp. -/
def computeRaw (interp : FeatureExtractor → Slice5D → List Nat)
    (coll : FeatureExtractorCollection) (roi : Slice5D) : List Nat :=
  (coll.features.map (fun f => interp f roi)).flatten

/-- Memo table and instrumentation for the lru_cache-decorated compute: the
cache is keyed on the call arguments, i.e. the collection value (its class and
field values, per FeatureExtractor eq and hash) together with the roi;
memberCalls counts how many member-extractor compute invocations have been
submitted so far. -/
structure ComputeState where
  cache : List ((FeatureExtractorCollection × Slice5D) × List Nat)
  memberCalls : Nat
deriving DecidableEq

/-- Assoc-list lookup for the memo table. -/
def findCache (key : FeatureExtractorCollection × Slice5D) :
    List ((FeatureExtractorCollection × Slice5D) × List Nat) → Option (List Nat)
  | [] => none
  | (k, v) :: rest => if k = key then some v else findCache key rest

/-- functools.lru_cache on FeatureExtractorCollection.compute: a cache hit
returns the stored buffer with no member invocations; a miss runs the body
(one submit per member feature) and stores the resulting buffer. -/
def computeMemo (interp : FeatureExtractor → Slice5D → List Nat)
    (coll : FeatureExtractorCollection) (roi : Slice5D) (st : ComputeState) :
    List Nat × ComputeState :=
  match findCache (coll, roi) st.cache with
  | some buf => (buf, st)
  | none =>
      let buf := computeRaw interp coll roi
      (buf, ⟨((coll, roi), buf) :: st.cache, st.memberCalls + coll.features.length⟩)

theorem le_natMax_of_mem {l : List Nat} {a : Nat} (h : a ∈ l) : a ≤ natMax l := by
  induction l with
  | nil => cases h
  | cons b l ih =>
      rcases List.mem_cons.mp h with rfl | h'
      · exact Nat.le_max_left _ _
      · exact Nat.le_trans (ih h') (Nat.le_max_right _ _)

theorem natMax_mem {l : List Nat} (h : l ≠ []) : natMax l ∈ l := by
  induction l with
  | nil => exact absurd rfl h
  | cons b l ih =>
      by_cases hl : l = []
      · subst hl
        simp [natMax]
      · have hm := ih hl
        show max b (natMax l) ∈ b :: l
        rcases Nat.le_total (natMax l) b with hb | hb
        · rw [Nat.max_eq_left hb]
          exact List.mem_cons_self _ _
        · rw [Nat.max_eq_right hb]
          exact List.mem_cons_of_mem _ hm

/-- C2: a repeated call to the memoized FeatureExtractorCollection.compute
with arguments equal to a previous call returns the identical cached buffer,
triggers zero additional member-extractor compute invocations, and leaves the
cache state unchanged (memoization is keyed on the extractor's class and field
values together with the roi). -/
theorem compute_memoized (interp : FeatureExtractor → Slice5D → List Nat)
    (coll : FeatureExtractorCollection) (roi : Slice5D) (st : ComputeState) :
    (computeMemo interp coll roi (computeMemo interp coll roi st).2).1
        = (computeMemo interp coll roi st).1 ∧
    (computeMemo interp coll roi (computeMemo interp coll roi st).2).2.memberCalls
        = (computeMemo interp coll roi st).2.memberCalls ∧
    (computeMemo interp coll roi (computeMemo interp coll roi st).2).2
        = (computeMemo interp coll roi st).2 := by
  cases h : findCache (coll, roi) st.cache with
  | some buf => simp [computeMemo, h]
  | none => simp [computeMemo, h, findCache]

/-- C4: the collection's kernel_shape bounds every member kernel per axis and
is attained per axis by some member (i.e. it is the per-axis maximum); its
halo h satisfies 2h ≤ kernel_shape < 2h + 2 per axis (floor division by two);
and compute requests upstream exactly the roi padded by that halo on each
side, never more. -/
theorem collection_kernel_halo_request (coll : FeatureExtractorCollection)
    (hne : coll.features ≠ []) (roi : Slice5D) :
    (∀ f ∈ coll.features, Point5D.axisLe f.kernel_shape coll.kernel_shape) ∧
    ((∃ f ∈ coll.features, f.kernel_shape.t = coll.kernel_shape.t) ∧
     (∃ f ∈ coll.features, f.kernel_shape.x = coll.kernel_shape.x) ∧
     (∃ f ∈ coll.features, f.kernel_shape.y = coll.kernel_shape.y) ∧
     (∃ f ∈ coll.features, f.kernel_shape.z = coll.kernel_shape.z) ∧
     (∃ f ∈ coll.features, f.kernel_shape.c = coll.kernel_shape.c)) ∧
    (2 * coll.halo.t ≤ coll.kernel_shape.t ∧ coll.kernel_shape.t < 2 * coll.halo.t + 2 ∧
     2 * coll.halo.x ≤ coll.kernel_shape.x ∧ coll.kernel_shape.x < 2 * coll.halo.x + 2 ∧
     2 * coll.halo.y ≤ coll.kernel_shape.y ∧ coll.kernel_shape.y < 2 * coll.halo.y + 2 ∧
     2 * coll.halo.z ≤ coll.kernel_shape.z ∧ coll.kernel_shape.z < 2 * coll.halo.z + 2 ∧
     2 * coll.halo.c ≤ coll.kernel_shape.c ∧ coll.kernel_shape.c < 2 * coll.halo.c + 2) ∧
    coll.computeRequest roi =
      { start := ⟨roi.start.t - coll.halo.t, roi.start.x - coll.halo.x,
                  roi.start.y - coll.halo.y, roi.start.z - coll.halo.z,
                  roi.start.c - coll.halo.c⟩
        stop := ⟨roi.stop.t + coll.halo.t, roi.stop.x + coll.halo.x,
                 roi.stop.y + coll.halo.y, roi.stop.z + coll.halo.z,
                 roi.stop.c + coll.halo.c⟩ } := by
  have hmap : ∀ g : FeatureExtractor → Nat,
      coll.features.map g ≠ [] := by
    intro g hmap
    exact hne (List.map_eq_nil_iff.mp hmap)
  have attained : ∀ g : FeatureExtractor → Nat,
      ∃ f ∈ coll.features, g f = natMax (coll.features.map g) := by
    intro g
    have hm := natMax_mem (hmap g)
    rcases List.mem_map.mp hm with ⟨f, hf, hg⟩
    exact ⟨f, hf, hg⟩
  refine ⟨?_, ⟨?_, ?_, ?_, ?_, ?_⟩, ?_, rfl⟩
  · intro f hf
    exact ⟨le_natMax_of_mem (List.mem_map_of_mem _ hf),
           le_natMax_of_mem (List.mem_map_of_mem _ hf),
           le_natMax_of_mem (List.mem_map_of_mem _ hf),
           le_natMax_of_mem (List.mem_map_of_mem _ hf),
           le_natMax_of_mem (List.mem_map_of_mem _ hf)⟩
  · exact attained (fun f => f.kernel_shape.t)
  · exact attained (fun f => f.kernel_shape.x)
  · exact attained (fun f => f.kernel_shape.y)
  · exact attained (fun f => f.kernel_shape.z)
  · exact attained (fun f => f.kernel_shape.c)
  · simp only [FeatureExtractorCollection.halo, Point5D.floorDiv]
    omega

/-- A concrete two-member collection for evaluating the C4 theorem. -/
def fe1 : FeatureExtractor := ⟨⟨3, 5, 5, 1, 1⟩, [0]⟩

/-- A second concrete member feature. -/
def fe2 : FeatureExtractor := ⟨⟨1, 7, 3, 1, 1⟩, [1]⟩

/-- Concrete collection of fe1 and fe2. -/
def coll0 : FeatureExtractorCollection := ⟨[fe1, fe2]⟩

/-- A concrete roi for evaluating the C4 theorem. -/
def roi0 : Slice5D := ⟨⟨10, 10, 10, 10, 0⟩, ⟨11, 20, 20, 11, 1⟩⟩

/-- Witness for C4: the kernel/halo/request theorem evaluated on the concrete
two-member collection coll0 at roi0. -/
theorem collection_kernel_halo_request_witness :
    coll0.features ≠ [] ∧
    ((∀ f ∈ coll0.features, Point5D.axisLe f.kernel_shape coll0.kernel_shape) ∧
    ((∃ f ∈ coll0.features, f.kernel_shape.t = coll0.kernel_shape.t) ∧
     (∃ f ∈ coll0.features, f.kernel_shape.x = coll0.kernel_shape.x) ∧
     (∃ f ∈ coll0.features, f.kernel_shape.y = coll0.kernel_shape.y) ∧
     (∃ f ∈ coll0.features, f.kernel_shape.z = coll0.kernel_shape.z) ∧
     (∃ f ∈ coll0.features, f.kernel_shape.c = coll0.kernel_shape.c)) ∧
    (2 * coll0.halo.t ≤ coll0.kernel_shape.t ∧ coll0.kernel_shape.t < 2 * coll0.halo.t + 2 ∧
     2 * coll0.halo.x ≤ coll0.kernel_shape.x ∧ coll0.kernel_shape.x < 2 * coll0.halo.x + 2 ∧
     2 * coll0.halo.y ≤ coll0.kernel_shape.y ∧ coll0.kernel_shape.y < 2 * coll0.halo.y + 2 ∧
     2 * coll0.halo.z ≤ coll0.kernel_shape.z ∧ coll0.kernel_shape.z < 2 * coll0.halo.z + 2 ∧
     2 * coll0.halo.c ≤ coll0.kernel_shape.c ∧ coll0.kernel_shape.c < 2 * coll0.halo.c + 2) ∧
    coll0.computeRequest roi0 =
      { start := ⟨roi0.start.t - coll0.halo.t, roi0.start.x - coll0.halo.x,
                  roi0.start.y - coll0.halo.y, roi0.start.z - coll0.halo.z,
                  roi0.start.c - coll0.halo.c⟩
        stop := ⟨roi0.stop.t + coll0.halo.t, roi0.stop.x + coll0.halo.x,
                 roi0.stop.y + coll0.halo.y, roi0.stop.z + coll0.halo.z,
                 roi0.stop.c + coll0.halo.c⟩ }) :=
  ⟨by decide, collection_kernel_halo_request coll0 (by decide) roi0⟩

end Features

namespace GraphCut

/- Embedding of src/ilastik/applets/thresholdTwoLevels/_OpGraphCut.py. -/

/-- One natural number per axis, in the txyzc index order assumed by
OpGraphCut (t has index 0, c has index 4). -/
structure Vec5 where
  t : Nat
  x : Nat
  y : Nat
  z : Nat
  c : Nat
deriving DecidableEq

/-- A dirty region: start and stop per axis (a lazyflow SubRegion). -/
structure Region5 where
  start : Vec5
  stop : Vec5
deriving DecidableEq

/-- Per-axis less-or-equal. -/
def Vec5.le (a b : Vec5) : Prop :=
  a.t ≤ b.t ∧ a.x ≤ b.x ∧ a.y ≤ b.y ∧ a.z ≤ b.z ∧ a.c ≤ b.c

/-- Region containment: A contains B when A.start ≤ B.start and B.stop ≤ A.stop
on every axis. -/
def Region5.containsR (A B : Region5) : Prop :=
  Vec5.le A.start B.start ∧ Vec5.le B.stop A.stop

instance (a b : Vec5) : Decidable (Vec5.le a b) := by
  unfold Vec5.le
  infer_instance

instance (A B : Region5) : Decidable (Region5.containsR A B) := by
  unfold Region5.containsR
  infer_instance

/-- The two input slots of OpGraphCut that propagateDirty dispatches on. -/
inductive GCInSlot
  | beta
  | prediction
deriving DecidableEq

/-- OpGraphCut.propagateDirty: a Beta change marks the whole output dirty
(slice(None), i.e. the full region of the output shape); a Prediction change
over roi marks dirty the region keeping roi's t and c bounds and spanning the
full output shape on x, y and z. -/
def propagateDirty (outShape : Vec5) (slot : GCInSlot) (roi : Region5) : Region5 :=
  match slot with
  | .beta => { start := ⟨0, 0, 0, 0, 0⟩, stop := outShape }
  | .prediction =>
      { start := ⟨roi.start.t, 0, 0, 0, roi.start.c⟩
        stop := ⟨roi.stop.t, outShape.x, outShape.y, outShape.z, roi.stop.c⟩ }

/-- C3: for a dirty region R on the Prediction input, the region marked dirty
on Output keeps exactly R's t and c bounds, spans the full output shape on x,
y and z, and contains R whenever R lies within the output shape (so the
narrowed policy never under-invalidates); a Beta change marks the whole
output dirty. -/
theorem propagateDirty_correct (shape : Vec5) (R : Region5)
    (hvalid : Vec5.le R.stop shape) :
    ((propagateDirty shape .prediction R).start.t = R.start.t ∧
     (propagateDirty shape .prediction R).stop.t = R.stop.t ∧
     (propagateDirty shape .prediction R).start.c = R.start.c ∧
     (propagateDirty shape .prediction R).stop.c = R.stop.c) ∧
    ((propagateDirty shape .prediction R).start.x = 0 ∧
     (propagateDirty shape .prediction R).stop.x = shape.x ∧
     (propagateDirty shape .prediction R).start.y = 0 ∧
     (propagateDirty shape .prediction R).stop.y = shape.y ∧
     (propagateDirty shape .prediction R).start.z = 0 ∧
     (propagateDirty shape .prediction R).stop.z = shape.z) ∧
    Region5.containsR (propagateDirty shape .prediction R) R ∧
    propagateDirty shape .beta R = { start := ⟨0, 0, 0, 0, 0⟩, stop := shape } := by
  obtain ⟨ht, hx, hy, hz, hc⟩ := hvalid
  refine ⟨⟨rfl, rfl, rfl, rfl⟩, ⟨rfl, rfl, rfl, rfl, rfl, rfl⟩, ?_, rfl⟩
  exact ⟨⟨Nat.le_refl _, Nat.zero_le _, Nat.zero_le _, Nat.zero_le _, Nat.le_refl _⟩,
         ⟨Nat.le_refl _, hx, hy, hz, Nat.le_refl _⟩⟩

/-- Witness for C3: the dirty-propagation theorem evaluated at a concrete
shape and prediction region. -/
theorem propagateDirty_correct_witness :
    Vec5.le (Region5.mk ⟨1, 2, 3, 4, 0⟩ ⟨2, 5, 6, 7, 1⟩).stop ⟨3, 10, 20, 30, 2⟩ ∧
    (((propagateDirty ⟨3, 10, 20, 30, 2⟩ .prediction
          (Region5.mk ⟨1, 2, 3, 4, 0⟩ ⟨2, 5, 6, 7, 1⟩)).start.t
        = (Region5.mk ⟨1, 2, 3, 4, 0⟩ ⟨2, 5, 6, 7, 1⟩).start.t ∧
      (propagateDirty ⟨3, 10, 20, 30, 2⟩ .prediction
          (Region5.mk ⟨1, 2, 3, 4, 0⟩ ⟨2, 5, 6, 7, 1⟩)).stop.t
        = (Region5.mk ⟨1, 2, 3, 4, 0⟩ ⟨2, 5, 6, 7, 1⟩).stop.t ∧
      (propagateDirty ⟨3, 10, 20, 30, 2⟩ .prediction
          (Region5.mk ⟨1, 2, 3, 4, 0⟩ ⟨2, 5, 6, 7, 1⟩)).start.c
        = (Region5.mk ⟨1, 2, 3, 4, 0⟩ ⟨2, 5, 6, 7, 1⟩).start.c ∧
      (propagateDirty ⟨3, 10, 20, 30, 2⟩ .prediction
          (Region5.mk ⟨1, 2, 3, 4, 0⟩ ⟨2, 5, 6, 7, 1⟩)).stop.c
        = (Region5.mk ⟨1, 2, 3, 4, 0⟩ ⟨2, 5, 6, 7, 1⟩).stop.c) ∧
     ((propagateDirty ⟨3, 10, 20, 30, 2⟩ .prediction
          (Region5.mk ⟨1, 2, 3, 4, 0⟩ ⟨2, 5, 6, 7, 1⟩)).start.x = 0 ∧
      (propagateDirty ⟨3, 10, 20, 30, 2⟩ .prediction
          (Region5.mk ⟨1, 2, 3, 4, 0⟩ ⟨2, 5, 6, 7, 1⟩)).stop.x = (⟨3, 10, 20, 30, 2⟩ : Vec5).x ∧
      (propagateDirty ⟨3, 10, 20, 30, 2⟩ .prediction
          (Region5.mk ⟨1, 2, 3, 4, 0⟩ ⟨2, 5, 6, 7, 1⟩)).start.y = 0 ∧
      (propagateDirty ⟨3, 10, 20, 30, 2⟩ .prediction
          (Region5.mk ⟨1, 2, 3, 4, 0⟩ ⟨2, 5, 6, 7, 1⟩)).stop.y = (⟨3, 10, 20, 30, 2⟩ : Vec5).y ∧
      (propagateDirty ⟨3, 10, 20, 30, 2⟩ .prediction
          (Region5.mk ⟨1, 2, 3, 4, 0⟩ ⟨2, 5, 6, 7, 1⟩)).start.z = 0 ∧
      (propagateDirty ⟨3, 10, 20, 30, 2⟩ .prediction
          (Region5.mk ⟨1, 2, 3, 4, 0⟩ ⟨2, 5, 6, 7, 1⟩)).stop.z = (⟨3, 10, 20, 30, 2⟩ : Vec5).z) ∧
     Region5.containsR
       (propagateDirty ⟨3, 10, 20, 30, 2⟩ .prediction
          (Region5.mk ⟨1, 2, 3, 4, 0⟩ ⟨2, 5, 6, 7, 1⟩))
       (Region5.mk ⟨1, 2, 3, 4, 0⟩ ⟨2, 5, 6, 7, 1⟩) ∧
     propagateDirty ⟨3, 10, 20, 30, 2⟩ .beta (Region5.mk ⟨1, 2, 3, 4, 0⟩ ⟨2, 5, 6, 7, 1⟩)
       = { start := ⟨0, 0, 0, 0, 0⟩, stop := ⟨3, 10, 20, 30, 2⟩ }) :=
  ⟨by decide,
   propagateDirty_correct ⟨3, 10, 20, 30, 2⟩ (Region5.mk ⟨1, 2, 3, 4, 0⟩ ⟨2, 5, 6, 7, 1⟩)
     (by decide)⟩

/-- The dtypes relevant to OpGraphCut metadata. -/
inductive GCDtype
  | uint8
  | uint32
  | float32
deriving DecidableEq

/-- Slot metadata: shape, axis keys and dtype. -/
structure GCMeta where
  shape : List Nat
  axiskeys : List Char
  dtype : GCDtype
deriving DecidableEq

/-- OpGraphCut.setupOutputs: asserts the Prediction input is a full 5d volume
in txyzc order, assigns the Output metadata from the Prediction metadata with
dtype forced to uint8, and sets the internal cache's block shape to the
prediction shape with the entries at index 0 (t) and index 4 (c) replaced
by 1. Returns the Output metadata and the cache block shape. -/
def gcSetupOutputs (pred : GCMeta) : Except String (GCMeta × List Nat) :=
  if pred.shape.length ≠ 5 then
    .error "Prediction maps must be a full 5d volume (txyzc)"
  else if pred.axiskeys ≠ ['t', 'x', 'y', 'z', 'c'] then
    .error "Prediction maps have wrong axes order"
  else
    .ok ({ pred with dtype := .uint8 }, (pred.shape.set 0 1).set 4 1)

theorem length_eq_five {l : List Nat} (h : l.length = 5) :
    ∃ s0 s1 s2 s3 s4, l = [s0, s1, s2, s3, s4] := by
  match l, h with
  | [s0, s1, s2, s3, s4], _ => exact ⟨s0, s1, s2, s3, s4, rfl⟩

/-- C6: OpGraphCut.setupOutputs derives the Output metadata deterministically
from the Prediction metadata: on success the output metadata keeps the
prediction's shape and axis keys with dtype forced to uint8, and the cache
block shape is the prediction shape with the t and c extents replaced by 1;
any input that is not a full 5-dimensional txyzc volume is rejected with an
error. -/
theorem gcSetupOutputs_correct (pred : GCMeta) :
    (∀ m bs, gcSetupOutputs pred = .ok (m, bs) →
        m.dtype = GCDtype.uint8 ∧ m.shape = pred.shape ∧ m.axiskeys = pred.axiskeys ∧
        ∃ s0 s1 s2 s3 s4, pred.shape = [s0, s1, s2, s3, s4] ∧ bs = [1, s1, s2, s3, 1]) ∧
    ((pred.shape.length ≠ 5 ∨ pred.axiskeys ≠ ['t', 'x', 'y', 'z', 'c']) →
        ∃ e, gcSetupOutputs pred = .error e) := by
  constructor
  · intro m bs hok
    unfold gcSetupOutputs at hok
    by_cases h5 : pred.shape.length = 5
    · by_cases hax : pred.axiskeys = ['t', 'x', 'y', 'z', 'c']
      · rw [if_neg (by simp [h5]), if_neg (by simp [hax])] at hok
        obtain ⟨heq1, heq2⟩ : { pred with dtype := GCDtype.uint8 } = m ∧
            (pred.shape.set 0 1).set 4 1 = bs := by
          cases hok
          exact ⟨rfl, rfl⟩
        obtain ⟨s0, s1, s2, s3, s4, hsh⟩ := length_eq_five h5
        refine ⟨?_, ?_, ?_, s0, s1, s2, s3, s4, hsh, ?_⟩
        · rw [← heq1]
        · rw [← heq1]
        · rw [← heq1]
        · rw [← heq2, hsh]
          rfl
      · rw [if_neg (by simp [h5]), if_pos (by simp [hax])] at hok
        cases hok
    · rw [if_pos (by simp [h5])] at hok
      cases hok
  · intro hbad
    unfold gcSetupOutputs
    by_cases h5 : pred.shape.length = 5
    · have hax : pred.axiskeys ≠ ['t', 'x', 'y', 'z', 'c'] := by
        rcases hbad with h | h
        · exact absurd h5 h
        · exact h
      rw [if_neg (by simp [h5]), if_pos (by simp [hax])]
      exact ⟨_, rfl⟩
    · rw [if_pos (by simp [h5])]
      exact ⟨_, rfl⟩

/-- Witness for C6: the metadata theorem evaluated on a concrete 5d float32
prediction metadata, discharging the success hypothesis at that input. -/
theorem gcSetupOutputs_correct_witness :
    (GCMeta.mk [2, 30, 40, 50, 3] ['t', 'x', 'y', 'z', 'c'] GCDtype.uint8).dtype
        = GCDtype.uint8 ∧
    (GCMeta.mk [2, 30, 40, 50, 3] ['t', 'x', 'y', 'z', 'c'] GCDtype.uint8).shape
        = (GCMeta.mk [2, 30, 40, 50, 3] ['t', 'x', 'y', 'z', 'c'] GCDtype.float32).shape ∧
    (GCMeta.mk [2, 30, 40, 50, 3] ['t', 'x', 'y', 'z', 'c'] GCDtype.uint8).axiskeys
        = (GCMeta.mk [2, 30, 40, 50, 3] ['t', 'x', 'y', 'z', 'c'] GCDtype.float32).axiskeys ∧
    (∃ s0 s1 s2 s3 s4,
        (GCMeta.mk [2, 30, 40, 50, 3] ['t', 'x', 'y', 'z', 'c'] GCDtype.float32).shape
          = [s0, s1, s2, s3, s4] ∧ [1, 30, 40, 50, 1] = [1, s1, s2, s3, 1]) :=
  (gcSetupOutputs_correct
      (GCMeta.mk [2, 30, 40, 50, 3] ['t', 'x', 'y', 'z', 'c'] GCDtype.float32)).1
      (GCMeta.mk [2, 30, 40, 50, 3] ['t', 'x', 'y', 'z', 'c'] GCDtype.uint8)
      [1, 30, 40, 50, 1] rfl

end GraphCut


namespace DataSel

/- Embedding of src/ilastik/applets/dataSelection/opDataSelection.py. -/

/-- An axis order, e.g. tczyx; models the Python axis-order strings as lists
of axis characters. -/
abbrev AxisOrder := List Char

/-- The tagged shape of a data provider: axis keys with their extents, in
axis order. -/
abbrev TaggedShape := List (Char × Nat)

/-- The errors OpDataSelection.setupOutputs can raise in this model. -/
inductive DSError
  | datasetConstraint (msg : String)
  | readerFailure
deriving DecidableEq

/-- The message of the DatasetConstraintError raised when no forced axis
order is compliant. -/
def axisOrderMsg : String :=
  "The axes of your dataset are not compatible with any of the allowed axis configurations used by this workflow."

/-- The message of the DatasetConstraintError raised when the data lacks an
x or y axis. -/
def xyMsg : String :=
  "Data must always have at leaset the axes x and y for ilastik to work."

/-- The non-singleton axes of the provider: every axis whose extent
exceeds 1 (required_axes in _get_output_axis_order). -/
def requiredAxes (ts : TaggedShape) : List Char :=
  (ts.filter (fun p => 1 < p.2)).map Prod.fst

/-- A configured order is compliant when it contains every non-singleton axis
(required_axes.issubset(set(o))). -/
def isCompliant (ts : TaggedShape) (o : AxisOrder) : Prop :=
  ∀ a ∈ requiredAxes ts, a ∈ o

instance (ts : TaggedShape) (o : AxisOrder) : Decidable (isCompliant ts o) := by
  unfold isCompliant
  infer_instance

/-- Python min(..., key=len) keeps the first element of minimal length. -/
def pickShorter (acc o : AxisOrder) : AxisOrder :=
  if o.length < acc.length then o else acc

/-- Python min(orders, default=(), key=len); the empty list models both the
`()` default and an empty order string, which are the falsy values the
subsequent check tests for. -/
def minByLen : List AxisOrder → AxisOrder
  | [] => []
  | x :: xs => xs.foldl pickShorter x

/-- OpDataSelection._get_output_axis_order: with a non-empty forceAxisOrder,
filter the configured orders down to the compliant ones, take the shortest,
raise a DatasetConstraintError if there is none, and append the channel axis
if it is missing; with no forced order, use the provider's axis keys, again
appending the channel axis if missing. -/
def getOutputAxisOrder (forceAxisOrder : List AxisOrder) (ts : TaggedShape) :
    Except DSError AxisOrder :=
  if forceAxisOrder ≠ [] then
    let compliant := forceAxisOrder.filter (fun o => decide (isCompliant ts o))
    let output := minByLen compliant
    if output = [] then .error (.datasetConstraint axisOrderMsg)
    else .ok (if 'c' ∈ output then output else output ++ ['c'])
  else
    let keys := ts.map Prod.fst
    .ok (if 'c' ∈ keys then keys else keys ++ ['c'])

theorem foldl_pickShorter_cases (xs : List AxisOrder) (a : AxisOrder) :
    xs.foldl pickShorter a = a ∨ xs.foldl pickShorter a ∈ xs := by
  induction xs generalizing a with
  | nil => exact Or.inl rfl
  | cons b xs ih =>
      rw [List.foldl_cons]
      by_cases hb : b.length < a.length
      · have hpick : pickShorter a b = b := if_pos hb
        rw [hpick]
        rcases ih b with h | h
        · right
          rw [h]
          exact List.mem_cons_self _ _
        · exact Or.inr (List.mem_cons_of_mem _ h)
      · have hpick : pickShorter a b = a := if_neg hb
        rw [hpick]
        rcases ih a with h | h
        · exact Or.inl h
        · exact Or.inr (List.mem_cons_of_mem _ h)

theorem foldl_pickShorter_le_acc (xs : List AxisOrder) (a : AxisOrder) :
    (xs.foldl pickShorter a).length ≤ a.length := by
  induction xs generalizing a with
  | nil => exact Nat.le_refl _
  | cons b xs ih =>
      rw [List.foldl_cons]
      refine Nat.le_trans (ih (pickShorter a b)) ?_
      unfold pickShorter
      split
      next h => exact Nat.le_of_lt h
      next h => exact Nat.le_refl _

theorem foldl_pickShorter_le_mem (xs : List AxisOrder) (a : AxisOrder) :
    ∀ y ∈ xs, (xs.foldl pickShorter a).length ≤ y.length := by
  induction xs generalizing a with
  | nil => intro y hy; cases hy
  | cons b xs ih =>
      intro y hy
      rw [List.foldl_cons]
      rcases List.mem_cons.mp hy with rfl | hy'
      · refine Nat.le_trans (foldl_pickShorter_le_acc xs (pickShorter a y)) ?_
        unfold pickShorter
        split
        next h => exact Nat.le_refl _
        next h => exact Nat.le_of_not_lt h
      · exact ih (pickShorter a b) y hy'

theorem minByLen_mem {xs : List AxisOrder} (h : xs ≠ []) : minByLen xs ∈ xs := by
  cases xs with
  | nil => exact absurd rfl h
  | cons x xs =>
      show xs.foldl pickShorter x ∈ x :: xs
      rcases foldl_pickShorter_cases xs x with h' | h'
      · rw [h']
        exact List.mem_cons_self _ _
      · exact List.mem_cons_of_mem _ h'

theorem minByLen_shortest {xs : List AxisOrder} :
    ∀ y ∈ xs, (minByLen xs).length ≤ y.length := by
  cases xs with
  | nil => intro y hy; cases hy
  | cons x xs =>
      intro y hy
      show (xs.foldl pickShorter x).length ≤ y.length
      rcases List.mem_cons.mp hy with rfl | hy'
      · exact foldl_pickShorter_le_acc xs y
      · exact foldl_pickShorter_le_mem xs x y hy'

/-- C10 counterexample: with configured orders containing only xy and a
dataset whose x and y extents exceed 1, the returned axis order is xyc, which
is not among the configured orders (and is longer than the shortest compliant
configured order), refuting the claim that the returned order is a shortest
order among the configured orders. -/
theorem axis_order_counterexample :
    getOutputAxisOrder [['x', 'y']] [('x', 2), ('y', 2)] = .ok ['x', 'y', 'c'] ∧
    ['x', 'y', 'c'] ∉ [['x', 'y']] ∧
    (['x', 'y', 'c'] : List Char).length ≠ (['x', 'y'] : List Char).length := by
  refine ⟨rfl, ?_, ?_⟩ <;> decide

/-- C10 (amended): for a non-empty forceAxisOrder, a returned order contains
the channel axis c and every non-singleton axis of the provider, and equals a
shortest compliant configured order with c appended when that order lacks it;
if no configured order contains all non-singleton axes, a
DatasetConstraintError is raised. -/
theorem getOutputAxisOrder_amended (fao : List AxisOrder) (ts : TaggedShape)
    (hne : fao ≠ []) :
    (∀ order, getOutputAxisOrder fao ts = .ok order →
        'c' ∈ order ∧
        (∀ p ∈ ts, 1 < p.2 → p.1 ∈ order) ∧
        ∃ o ∈ fao, isCompliant ts o ∧
          (∀ o' ∈ fao, isCompliant ts o' → o.length ≤ o'.length) ∧
          order = (if 'c' ∈ o then o else o ++ ['c'])) ∧
    ((∀ o ∈ fao, ¬ isCompliant ts o) →
        getOutputAxisOrder fao ts = .error (.datasetConstraint axisOrderMsg)) := by
  constructor
  · intro order hok
    unfold getOutputAxisOrder at hok
    rw [if_pos hne] at hok
    by_cases hout : minByLen (fao.filter (fun o => decide (isCompliant ts o))) = []
    · rw [if_pos hout] at hok
      cases hok
    · rw [if_neg hout] at hok
      have hfne : fao.filter (fun o => decide (isCompliant ts o)) ≠ [] := by
        intro hnil
        exact hout (by rw [hnil]; rfl)
      have hmem := minByLen_mem hfne
      have hmemf := List.mem_filter.mp hmem
      have hcomp : isCompliant ts (minByLen (fao.filter (fun o => decide (isCompliant ts o)))) :=
        of_decide_eq_true hmemf.2
      have horder : order =
          (if 'c' ∈ minByLen (fao.filter (fun o => decide (isCompliant ts o)))
           then minByLen (fao.filter (fun o => decide (isCompliant ts o)))
           else minByLen (fao.filter (fun o => decide (isCompliant ts o))) ++ ['c']) := by
        cases hok
        rfl
      have hsub : ∀ a ∈ requiredAxes ts, a ∈ order := by
        intro a ha
        rw [horder]
        split
        · exact hcomp a ha
        · exact List.mem_append_left _ (hcomp a ha)
      refine ⟨?_, ?_, minByLen (fao.filter (fun o => decide (isCompliant ts o))),
              hmemf.1, hcomp, ?_, horder⟩
      · rw [horder]
        split
        next hc => exact hc
        next hc => exact List.mem_append_right _ (List.mem_cons_self _ _)
      · intro p hp hsize
        refine hsub p.1 ?_
        unfold requiredAxes
        exact List.mem_map_of_mem _ (List.mem_filter.mpr ⟨hp, by simpa using hsize⟩)
      · intro o' ho' hc'
        exact minByLen_shortest o'
          (List.mem_filter.mpr ⟨ho', decide_eq_true hc'⟩)
  · intro hnone
    unfold getOutputAxisOrder
    rw [if_pos hne]
    have hfil : fao.filter (fun o => decide (isCompliant ts o)) = [] := by
      rw [List.filter_eq_nil_iff]
      intro o ho
      simpa using hnone o ho
    rw [hfil]
    rfl

/-- Witness for C10's amended theorem, evaluated at configured orders
[yxc, zyxc] and a provider with non-singleton y, x, c. -/
theorem getOutputAxisOrder_amended_witness :
    'c' ∈ (['y', 'x', 'c'] : AxisOrder) ∧
    (∀ p ∈ ([('t', 1), ('y', 4), ('x', 5), ('c', 2)] : TaggedShape), 1 < p.2 →
        p.1 ∈ (['y', 'x', 'c'] : AxisOrder)) ∧
    ∃ o ∈ ([['y', 'x', 'c'], ['z', 'y', 'x', 'c']] : List AxisOrder),
        isCompliant [('t', 1), ('y', 4), ('x', 5), ('c', 2)] o ∧
        (∀ o' ∈ ([['y', 'x', 'c'], ['z', 'y', 'x', 'c']] : List AxisOrder),
            isCompliant [('t', 1), ('y', 4), ('x', 5), ('c', 2)] o' →
            o.length ≤ o'.length) ∧
        (['y', 'x', 'c'] : AxisOrder) = (if 'c' ∈ o then o else o ++ ['c']) :=
  (getOutputAxisOrder_amended [['y', 'x', 'c'], ['z', 'y', 'x', 'c']]
      [('t', 1), ('y', 4), ('x', 5), ('c', 2)] (by decide)).1
    ['y', 'x', 'c'] rfl

/-- The state of an OpDataSelection operator: its child operators in creation
order (as ids handed out by nextId), whether the Image output slot is
connected, and the log of child cleanUp calls in the order they happened. -/
structure OpState where
  children : List Nat
  imageConnected : Bool
  cleanupLog : List Nat
  nextId : Nat
deriving DecidableEq

/-- OpDataSelection._clean_up_all_children: disconnect the Image output, then
clean up every child in reversed(self.children) order. -/
def cleanUpAllChildren (s : OpState) : OpState :=
  { children := []
    imageConnected := false
    cleanupLog := s.cleanupLog ++ s.children.reverse
    nextId := s.nextId }

/-- The aspects of a DatasetInfo that decide the control flow of
OpDataSelection.setupOutputs: whether building the provider slot succeeds,
and the provider's tagged shape (axis keys with extents). -/
structure DatasetDescr where
  readerOk : Bool
  taggedShape : TaggedShape
deriving DecidableEq

/-- OpDataSelection.setupOutputs: first clean up all children, then, inside a
try block, create the reader child via get_provider_slot, check that the data
has x and y axes, compute the output axis order, create the OpReorderAxes
child and connect the Image output; on any exception, clean up all children
again and re-raise. Returns the outcome together with the final operator
state. -/
def setupOutputsDS (info : DatasetDescr) (fao : List AxisOrder) (s0 : OpState) :
    Except DSError Unit × OpState :=
  let s1 := cleanUpAllChildren s0
  let s2 : OpState := { s1 with children := s1.children ++ [s1.nextId], nextId := s1.nextId + 1 }
  if info.readerOk = false then
    (.error .readerFailure, cleanUpAllChildren s2)
  else if ¬ ('x' ∈ info.taggedShape.map Prod.fst ∧ 'y' ∈ info.taggedShape.map Prod.fst) then
    (.error (.datasetConstraint xyMsg), cleanUpAllChildren s2)
  else
    match getOutputAxisOrder fao info.taggedShape with
    | .error e => (.error e, cleanUpAllChildren s2)
    | .ok _ =>
        let s3 : OpState :=
          { s2 with
            children := s2.children ++ [s2.nextId]
            nextId := s2.nextId + 1
            imageConnected := true }
        (.ok (), s3)

/-- C5: whenever OpDataSelection.setupOutputs raises, the exception leaves the
operator with no children and the Image output disconnected, and the children
that existed were cleaned up in reverse creation order (the pre-existing ones
at entry, then the reader created inside the try block), so retrying with a
fixed input is safe. -/
theorem setupOutputs_cleanup_on_error (info : DatasetDescr) (fao : List AxisOrder)
    (s0 : OpState) (e : DSError) (s' : OpState)
    (h : setupOutputsDS info fao s0 = (.error e, s')) :
    s'.children = [] ∧ s'.imageConnected = false ∧
    s'.cleanupLog = s0.cleanupLog ++ s0.children.reverse ++ [s0.nextId] := by
  unfold setupOutputsDS at h
  split at h
  · obtain ⟨-, h2⟩ := Prod.mk.injEq _ _ _ _ ▸ h
    subst h2
    exact ⟨rfl, rfl, by simp [cleanUpAllChildren]⟩
  · split at h
    · obtain ⟨-, h2⟩ := Prod.mk.injEq _ _ _ _ ▸ h
      subst h2
      exact ⟨rfl, rfl, by simp [cleanUpAllChildren]⟩
    · split at h
      · obtain ⟨-, h2⟩ := Prod.mk.injEq _ _ _ _ ▸ h
        subst h2
        exact ⟨rfl, rfl, by simp [cleanUpAllChildren]⟩
      · cases h

/-- Witness for C5: a dataset whose provider reads fine but lacks an x axis
makes setupOutputs raise, and the final state is fully cleaned up. -/
theorem setupOutputs_cleanup_on_error_witness :
    (OpState.mk [] false [0] 1).children = [] ∧
    (OpState.mk [] false [0] 1).imageConnected = false ∧
    (OpState.mk [] false [0] 1).cleanupLog =
      (OpState.mk [] false [] 0).cleanupLog ++ (OpState.mk [] false [] 0).children.reverse
        ++ [(OpState.mk [] false [] 0).nextId] :=
  setupOutputs_cleanup_on_error ⟨true, [('y', 5), ('z', 5)]⟩ [['x', 'y']]
    (OpState.mk [] false [] 0) (.datasetConstraint xyMsg) (OpState.mk [] false [0] 1) rfl

/-- A convenience output of OpDataSelectionGroup: either connected to the
given lane's inner slot, or disconnected and marked NOTREADY. -/
inductive SlotConn
  | conn (laneIndex : Nat)
  | notReady
deriving DecidableEq

/-- The five convenience outputs of OpDataSelectionGroup. -/
structure GroupOutputs where
  image : SlotConn
  image1 : SlotConn
  image2 : SlotConn
  imageName : SlotConn
  allowLabels : SlotConn
deriving DecidableEq

/-- The tail of OpDataSelectionGroup.setupOutputs: with at least one dataset
in the wrapped Image multislot, connect Image, ImageName and AllowLabels to
the first lane (Image1/Image2 to lanes 1 and 2 when present, NOTREADY
otherwise); with an empty multislot, disconnect all five convenience outputs
and mark them NOTREADY. -/
def groupSetupOutputs (numImages : Nat) : GroupOutputs :=
  if 0 < numImages then
    { image := .conn 0
      image1 := if 2 ≤ numImages then .conn 1 else .notReady
      image2 := if 3 ≤ numImages then .conn 2 else .notReady
      imageName := .conn 0
      allowLabels := .conn 0 }
  else
    { image := .notReady, image1 := .notReady, image2 := .notReady,
      imageName := .notReady, allowLabels := .notReady }

/-- C8: with an empty wrapped Image multislot all convenience outputs of
OpDataSelectionGroup are disconnected and not-ready; with at least one
dataset, Image, ImageName and AllowLabels are connected to the first lane. -/
theorem groupSetupOutputs_correct (n : Nat) :
    (n = 0 →
      groupSetupOutputs n =
        { image := .notReady, image1 := .notReady, image2 := .notReady,
          imageName := .notReady, allowLabels := .notReady }) ∧
    (0 < n →
      (groupSetupOutputs n).image = .conn 0 ∧
      (groupSetupOutputs n).imageName = .conn 0 ∧
      (groupSetupOutputs n).allowLabels = .conn 0) := by
  constructor
  · rintro rfl
    rfl
  · intro hn
    unfold groupSetupOutputs
    rw [if_pos hn]
    exact ⟨rfl, rfl, rfl⟩

/-- Witness for C8: the group-outputs theorem evaluated at zero and at two
configured datasets. -/
theorem groupSetupOutputs_correct_witness :
    (groupSetupOutputs 0 =
      { image := .notReady, image1 := .notReady, image2 := .notReady,
        imageName := .notReady, allowLabels := .notReady }) ∧
    ((groupSetupOutputs 2).image = .conn 0 ∧
     (groupSetupOutputs 2).imageName = .conn 0 ∧
     (groupSetupOutputs 2).allowLabels = .conn 0) :=
  ⟨(groupSetupOutputs_correct 0).1 rfl, (groupSetupOutputs_correct 2).2 (by decide)⟩

end DataSel

namespace MultiLane

/- Embedding of OpMultiLaneDataSelectionGroup.pushLane
(src/ilastik/applets/dataSelection/opDataSelection.py, lines 996-1004). -/

/-- The lanes of an OpMultiLaneDataSelectionGroup, by id. -/
structure MultiLaneState where
  lanes : List Nat
deriving DecidableEq

/-- OpMultiLaneDataSelectionGroup.addLane: appends one lane when numLanes
equals laneIndex, otherwise does nothing. Modelled from the spec for the
OpMultiLaneWrapper base class (not under src/), whose insertion of a list
element adds one replica. -/
def addLane (s : MultiLaneState) (laneIndex : Nat) : MultiLaneState :=
  if s.lanes.length = laneIndex then { lanes := s.lanes ++ [laneIndex] } else s

/-- OpMultiLaneDataSelectionGroup.removeLane: removes the lane at laneIndex
when the current lane count exceeds finalLength, otherwise does nothing.
Modelled from the spec for the OpMultiLaneWrapper base class (not under
src/), whose removal of a list element removes the replica at that index. -/
def removeLane (s : MultiLaneState) (laneIndex finalLength : Nat) : MultiLaneState :=
  if finalLength < s.lanes.length then { lanes := s.lanes.eraseIdx laneIndex } else s

/-- Failure injections for the three steps of pushLane: each step either
succeeds or raises the given error. -/
structure PushEnv where
  addErr : Option Nat
  configureErr : Option Nat
  notifyErr : Option Nat
deriving DecidableEq

/-- OpMultiLaneDataSelectionGroup.pushLane: record the original lane count,
add a lane at that index, configure it and notify the workflow; if any of
those steps raises, remove lanes back down to the original count and re-raise
the exception. -/
def pushLane (env : PushEnv) (s : MultiLaneState) : Except Nat Unit × MultiLaneState :=
  let original := s.lanes.length
  let s1 := addLane s original
  match env.addErr with
  | some e => (.error e, removeLane s1 original original)
  | none =>
      match env.configureErr with
      | some e => (.error e, removeLane s1 original original)
      | none =>
          match env.notifyErr with
          | some e => (.error e, removeLane s1 original original)
          | none => (.ok (), s1)

theorem removeLane_addLane_length (s : MultiLaneState) :
    (removeLane (addLane s s.lanes.length) s.lanes.length s.lanes.length).lanes.length
      = s.lanes.length := by
  have hadd : (addLane s s.lanes.length).lanes = s.lanes ++ [s.lanes.length] := by
    unfold addLane
    rw [if_pos rfl]
  unfold removeLane
  rw [if_pos (by rw [hadd]; simp)]
  rw [hadd]
  have hlt : s.lanes.length < (s.lanes ++ [s.lanes.length]).length := by simp
  have := List.length_eraseIdx_add_one hlt
  simp at this ⊢
  omega

/-- C9: pushLane is atomic with respect to the lane count: if any of its
steps (adding the lane, configuring it, or notifying the workflow) raises,
the lane count after the call equals the count before it and the original
exception is the one re-raised; on success exactly one lane is added. -/
theorem pushLane_atomic (env : PushEnv) (s : MultiLaneState) :
    (∀ e s', pushLane env s = (.error e, s') →
        s'.lanes.length = s.lanes.length ∧
        (env.addErr = some e ∨
         (env.addErr = none ∧ env.configureErr = some e) ∨
         (env.addErr = none ∧ env.configureErr = none ∧ env.notifyErr = some e))) ∧
    (∀ s', pushLane env s = (.ok (), s') → s'.lanes.length = s.lanes.length + 1) := by
  have hadd : (addLane s s.lanes.length).lanes = s.lanes ++ [s.lanes.length] := by
    unfold addLane
    rw [if_pos rfl]
  constructor
  · intro e s' h
    unfold pushLane at h
    cases ha : env.addErr with
    | some e0 =>
        rw [ha] at h
        obtain ⟨h1, h2⟩ := Prod.mk.injEq _ _ _ _ ▸ h
        cases h1
        subst h2
        exact ⟨removeLane_addLane_length s, Or.inl rfl⟩
    | none =>
        rw [ha] at h
        cases hc : env.configureErr with
        | some e0 =>
            rw [hc] at h
            obtain ⟨h1, h2⟩ := Prod.mk.injEq _ _ _ _ ▸ h
            cases h1
            subst h2
            exact ⟨removeLane_addLane_length s, Or.inr (Or.inl ⟨rfl, rfl⟩)⟩
        | none =>
            rw [hc] at h
            cases hn : env.notifyErr with
            | some e0 =>
                rw [hn] at h
                obtain ⟨h1, h2⟩ := Prod.mk.injEq _ _ _ _ ▸ h
                cases h1
                subst h2
                exact ⟨removeLane_addLane_length s, Or.inr (Or.inr ⟨rfl, rfl, rfl⟩)⟩
            | none =>
                rw [hn] at h
                cases h
  · intro s' h
    unfold pushLane at h
    cases ha : env.addErr with
    | some e0 =>
        rw [ha] at h
        cases h
    | none =>
        rw [ha] at h
        cases hc : env.configureErr with
        | some e0 =>
            rw [hc] at h
            cases h
        | none =>
            rw [hc] at h
            cases hn : env.notifyErr with
            | some e0 =>
                rw [hn] at h
                cases h
            | none =>
                rw [hn] at h
                obtain ⟨-, h2⟩ := Prod.mk.injEq _ _ _ _ ▸ h
                subst h2
                rw [hadd]
                simp

/-- Witness for C9: pushLane applied to a one-lane operator with a failing
configure step leaves the lane count at one and re-raises that error. -/
theorem pushLane_atomic_witness :
    (MultiLaneState.mk [5]).lanes.length = (MultiLaneState.mk [5]).lanes.length ∧
    ((PushEnv.mk none (some 7) none).addErr = some 7 ∨
     ((PushEnv.mk none (some 7) none).addErr = none ∧
      (PushEnv.mk none (some 7) none).configureErr = some 7) ∨
     ((PushEnv.mk none (some 7) none).addErr = none ∧
      (PushEnv.mk none (some 7) none).configureErr = none ∧
      (PushEnv.mk none (some 7) none).notifyErr = some 7)) :=
  (pushLane_atomic (PushEnv.mk none (some 7) none) (MultiLaneState.mk [5])).1 7
    (MultiLaneState.mk [5]) rfl

end MultiLane

namespace Shell

/- Embedding of ProgressDisplayManager.handleAppletProgressImpl
(src/ilastik/shell/gui/ilastikShell.py, lines 93-117). -/

/-- The appletPercentages dict: applet index mapped to percent progress. -/
abbrev PercentMap := List (Nat × Nat)

/-- Python dict membership test. -/
def assocContains (m : PercentMap) (k : Nat) : Bool :=
  m.any (fun p => p.1 == k)

/-- Python dict read (only performed on present keys in the source). -/
def assocGet (m : PercentMap) (k : Nat) : Nat :=
  match m with
  | [] => 0
  | p :: rest => if p.1 = k then p.2 else assocGet rest k

/-- Python dict assignment: replace the value when present, insert at the end
otherwise. -/
def assocSet (m : PercentMap) (k v : Nat) : PercentMap :=
  match m with
  | [] => [(k, v)]
  | p :: rest => if p.1 = k then (k, v) :: rest else p :: assocSet rest k v

/-- Python del on a dict key. -/
def assocErase (m : PercentMap) (k : Nat) : PercentMap :=
  m.filter (fun p => p.1 != k)

/-- The state of the ProgressDisplayManager: the per-applet percentages and
whether a progress bar widget currently exists in the status bar. -/
structure ProgressState where
  appletPercentages : PercentMap
  progressBarShown : Bool
deriving DecidableEq

/-- The dict update in handleAppletProgressImpl: on cancel, drop the applet's
entry if present; otherwise first assign max(new, old) when the key is
present, then, when the key is present or the new percentage is zero, assign
the raw new percentage (the source performs both assignments in this order,
so the second assignment overwrites the max with the raw value). -/
def updatePercentages (m : PercentMap) (index percentage : Nat) (cancelled : Bool) :
    PercentMap :=
  if cancelled then
    if assocContains m index then assocErase m index else m
  else
    let m1 := if assocContains m index
              then assocSet m index (max percentage (assocGet m index))
              else m
    if assocContains m1 index || percentage == 0 then assocSet m1 index percentage else m1

/-- ProgressDisplayManager.handleAppletProgressImpl: update the percentages
dict, then compute the mean percentage over active applets; when no applet is
active or the mean is 100, remove the progress bar (if present) and clear all
percentages, otherwise (create and) set the progress bar. -/
def handleAppletProgressImpl (st : ProgressState) (index percentage : Nat)
    (cancelled : Bool) : ProgressState :=
  let m := updatePercentages st.appletPercentages index percentage cancelled
  let numActive := m.length
  if numActive = 0 || (m.map Prod.snd).sum / numActive == 100 then
    if st.progressBarShown then ⟨[], false⟩ else ⟨m, st.progressBarShown⟩
  else
    ⟨m, true⟩

/-- C7 (code bug): the source's comment says the stored per-applet percentage
takes the max and never goes back down, but the assignment guarded by the
first-notification-is-zero check runs after the max assignment and overwrites
it with the raw percentage: after notifications 0 and 50 for applet 0 the
stored value is 50, and a further notification of 30 lowers it to 30. The
first-notification rule itself does hold: a first notification of 30 for an
untracked applet is ignored. -/
theorem progress_overwrites_max :
    (handleAppletProgressImpl (handleAppletProgressImpl ⟨[], false⟩ 0 0 false)
        0 50 false).appletPercentages = [(0, 50)] ∧
    (handleAppletProgressImpl (handleAppletProgressImpl
        (handleAppletProgressImpl ⟨[], false⟩ 0 0 false) 0 50 false)
        0 30 false).appletPercentages = [(0, 30)] ∧
    (handleAppletProgressImpl ⟨[], false⟩ 1 30 false).appletPercentages = [] := by
  refine ⟨?_, ?_, ?_⟩ <;> decide

end Shell

namespace OmeZarr

/- Embedding of the progress reporting of write_ome_zarr
(src/lazyflow/utility/io_util/write_ome_zarr.py) and DatasetInfo.dumpToHdf5
(src/ilastik/applets/dataSelection/opDataSelection.py, lines 323-341). -/

/-- Modelled from the spec: the streaming request driver (BigRequestStreamer,
which both exports subscribe their progress signal to, is not under src/)
advances a monotonically non-decreasing progress percentage, 0 at start and
100 only after every block has completed: 0, then after each of the n
completed blocks the integer percentage of blocks done. -/
def streamerProgress (n : Nat) : List Nat :=
  0 :: (List.range n).map (fun k => 100 * (k + 1) / n)

/-- write_ome_zarr delivers 25 to the caller-supplied progress signal before
running the streamer, forwards every streamer percentage (the signal is
subscribed to the streamer's progressSignal), and delivers 95 after the
streamer has finished, before writing the metadata. -/
def writeOmeZarrProgress (n : Nat) : List Nat :=
  25 :: (streamerProgress n ++ [95])

/-- DatasetInfo.dumpToHdf5 delivers 0 to the caller-supplied progress signal
before the write, forwards the writer's percentages (modelled from the spec
as the streaming driver's sequence), and delivers 100 in the finally block. -/
def dumpToHdf5Progress (n : Nat) : List Nat :=
  0 :: (streamerProgress n ++ [100])

/-- C1 counterexample: for a one-block export, write_ome_zarr delivers the
sequence 25, 0, 100, 95 to the caller-supplied progress signal: it does not
start at 0, it is not monotonically non-decreasing (25 is followed by the
streamer's initial 0), and 100 is delivered before the final value 95. -/
theorem writeOmeZarr_progress_counterexample :
    writeOmeZarrProgress 1 = [25, 0, 100, 95] ∧
    ¬ List.Chain' (fun a b => a ≤ b) (writeOmeZarrProgress 1) ∧
    (writeOmeZarrProgress 1).head? ≠ some 0 ∧
    (writeOmeZarrProgress 1).getLast? ≠ some 100 ∧
    100 ∈ writeOmeZarrProgress 1 := by
  refine ⟨rfl, ?_, by decide, by decide, by decide⟩
  intro h
  rw [show writeOmeZarrProgress 1 = [25, 0, 100, 95] from rfl] at h
  have h25 := (List.chain'_cons.mp h).1
  omega

theorem streamer_le_100 {n k : Nat} (hn : 0 < n) (hk : k ∈ List.range n) :
    100 * (k + 1) / n ≤ 100 := by
  have hk' : k < n := List.mem_range.mp hk
  calc 100 * (k + 1) / n ≤ 100 * n / n := Nat.div_le_div_right (by omega)
    _ = 100 := Nat.mul_div_cancel 100 hn

/-- C1 (amended): dumpToHdf5 delivers a monotonically non-decreasing
progress sequence that starts at 0 and ends at 100 (delivered in its finally
block, i.e. after completion or failure); write_ome_zarr instead wraps the
streamer's monotone 0-to-100 sequence between an initial 25 and a trailing
95, so its delivered sequence starts at 25 rather than 0 and delivers the
streamer's final 100 before its own final value 95. -/
theorem export_progress_amended (n : Nat) (hn : 0 < n) :
    (dumpToHdf5Progress n).head? = some 0 ∧
    List.Chain' (fun a b => a ≤ b) (dumpToHdf5Progress n) ∧
    (dumpToHdf5Progress n).getLast? = some 100 ∧
    writeOmeZarrProgress n = 25 :: (streamerProgress n ++ [95]) ∧
    (writeOmeZarrProgress n).head? = some 25 ∧
    (streamerProgress n).getLast? = some 100 := by
  refine ⟨rfl, ?_, ?_, rfl, rfl, ?_⟩
  · have hpair : List.Pairwise (fun a b => a ≤ b) (dumpToHdf5Progress n) := by
      show List.Pairwise (fun a b => a ≤ b)
        (0 :: 0 :: ((List.range n).map (fun k => 100 * (k + 1) / n) ++ [100]))
      refine List.pairwise_cons.mpr ⟨fun b _ => Nat.zero_le b, ?_⟩
      refine List.pairwise_cons.mpr ⟨fun b _ => Nat.zero_le b, ?_⟩
      refine List.pairwise_append.mpr ⟨?_, List.pairwise_singleton _ _, ?_⟩
      · refine List.pairwise_map.mpr ?_
        refine (List.pairwise_lt_range n).imp ?_
        intro a b hab
        exact Nat.div_le_div_right (by omega)
      · intro a ha b hb
        rw [List.mem_singleton] at hb
        subst hb
        rcases List.mem_map.mp ha with ⟨k, hk, rfl⟩
        exact streamer_le_100 hn hk
    exact hpair.chain'
  · show ((0 :: streamerProgress n) ++ [100]).getLast? = some 100
    exact List.getLast?_concat _
  · obtain ⟨m, rfl⟩ := Nat.exists_eq_add_of_lt hn
    show (0 :: (List.range (0 + m + 1)).map (fun k => 100 * (k + 1) / (0 + m + 1))).getLast?
        = some 100
    rw [List.range_succ, List.map_append, List.map_cons, List.map_nil, ← List.cons_append,
        List.getLast?_concat]
    have h100 : 100 * (0 + m + 1) / (0 + m + 1) = 100 := Nat.mul_div_cancel 100 (by omega)
    rw [h100]

/-- Witness for C1's amended theorem: the progress sequences of a two-block
export evaluated concretely. -/
theorem export_progress_amended_witness :
    0 < 2 ∧
    ((dumpToHdf5Progress 2).head? = some 0 ∧
     List.Chain' (fun a b => a ≤ b) (dumpToHdf5Progress 2) ∧
     (dumpToHdf5Progress 2).getLast? = some 100 ∧
     writeOmeZarrProgress 2 = 25 :: (streamerProgress 2 ++ [95]) ∧
     (writeOmeZarrProgress 2).head? = some 25 ∧
     (streamerProgress 2).getLast? = some 100) :=
  ⟨by decide, export_progress_amended 2 (by decide)⟩

end OmeZarr
